import Mathlib

/-!
Verification of the retrieval-augmented indexing and query engine of
ml-risk-compliance, together with the frontend behaviours that the
repository ships in TypeScript (Chatbot.tsx, useAutoDelete.ts,
Reports.tsx/Chat).

The repository's backend engine (chunker, vector index, index builder,
snapshot coordinator, retrieval orchestrator) is not part of the checked-in
sources; the definitions for those components are modelled from the spec,
as marked in their doc comments.  The frontend functions are embedded
directly from the TypeScript sources.
-/

namespace MLRC

/-- Modelled from the spec: chunker configuration, `max_chunk_chars` and
`overlap_chars`, both positive, `overlap_chars < max_chunk_chars`
(the chunker implementation itself is not among the checked-in sources). -/
structure ChunkCfg where
  maxChunkChars : Nat
  overlapChars : Nat
deriving Repr, DecidableEq

/-- Modelled from the spec: a chunk record
`(chunk_id, document_id, text, char_offset_start, char_offset_end)`. -/
structure Chunk where
  chunk_id : Nat
  document_id : Nat
  text : List Char
  char_offset_start : Nat
  char_offset_end : Nat
deriving Repr, DecidableEq

/-- Modelled from the spec: a document
`(document_id (opaque), source_name, full_text)`. -/
structure Document where
  document_id : Nat
  source_name : String
  full_text : List Char
deriving Repr, DecidableEq

/-- Modelled from the spec: the chunking loop.  Starting at `start`, each
chunk covers `[start, min (start + max_chunk_chars) len)`; the loop stops
when a chunk reaches the end of the text, and otherwise advances by
`max_chunk_chars - overlap_chars`.  `fuel` bounds the recursion and is
chosen large enough by `chunk`. -/
def chunkAux (cfg : ChunkCfg) (docId : Nat) (text : List Char) :
    Nat → Nat → Nat → List Chunk
  | 0, _, _ => []
  | fuel + 1, start, cid =>
    let e := min (start + cfg.maxChunkChars) text.length
    let c : Chunk := ⟨cid, docId, (text.drop start).take (e - start), start, e⟩
    if e = text.length then [c]
    else c :: chunkAux cfg docId text fuel (e - cfg.overlapChars) (cid + 1)

/-- Modelled from the spec: `chunk(document)` — deterministic, pure;
empty document text yields zero chunks. -/
def chunk (cfg : ChunkCfg) (d : Document) : List Chunk :=
  if d.full_text.length = 0 then []
  else chunkAux cfg d.document_id d.full_text (d.full_text.length + 1) 0 0

/-- Concatenation of a chunk sequence minus the configured overlap at each
boundary: the first chunk's text followed by every later chunk's text with
its first `overlap_chars` characters removed. -/
def reconstruct (cfg : ChunkCfg) : List Chunk → List Char
  | [] => []
  | c :: rest => c.text ++ (rest.map (fun x => x.text.drop cfg.overlapChars)).flatten

/-- Modelled from the spec: an embedded chunk — a chunk plus its
fixed-length numeric vector (unit-normalized at embedding time and cached
in the snapshot); vectors are modelled over `ℚ`. -/
structure EmbeddedChunk where
  chunk_id : Nat
  document_id : Nat
  text : List Char
  vector : List ℚ
deriving Repr, DecidableEq

/-- Modelled from the spec: an index snapshot
`(version, embedded_chunks, dimensionality)`, immutable after
construction. -/
structure Snapshot where
  version : Nat
  dimensionality : Nat
  embedded_chunks : List EmbeddedChunk
deriving Repr, DecidableEq

/-- Modelled from the spec: a query result item
`(chunk_id, document_id, score, snippet)`. -/
structure QueryResultItem where
  chunk_id : Nat
  document_id : Nat
  score : ℚ
  snippet : List Char
deriving Repr, DecidableEq

/-- Dot product of two vectors; on unit-normalized vectors this is the
cosine similarity the spec prescribes. -/
def dot (v w : List ℚ) : ℚ := (List.zipWith (fun a b => a * b) v w).sum

/-- Modelled from the spec: the ranking preorder on query result items —
strictly greater score first, ties broken by ascending chunk_id. -/
def rankLE (a b : QueryResultItem) : Prop :=
  b.score < a.score ∨ (a.score = b.score ∧ a.chunk_id ≤ b.chunk_id)

/-- The strict ranking order the ordering invariant speaks about:
strictly descending score, equal scores broken by strictly ascending
chunk_id. -/
def rankLT (a b : QueryResultItem) : Prop :=
  b.score < a.score ∨ (a.score = b.score ∧ a.chunk_id < b.chunk_id)

instance : DecidableRel rankLE := fun a b => by
  unfold rankLE
  exact inferInstance

instance : IsTotal QueryResultItem rankLE := by
  constructor
  intro a b
  unfold rankLE
  rcases lt_trichotomy a.score b.score with h | h | h
  · exact Or.inr (Or.inl h)
  · rcases Nat.le_total a.chunk_id b.chunk_id with h2 | h2
    · exact Or.inl (Or.inr ⟨h, h2⟩)
    · exact Or.inr (Or.inr ⟨h.symm, h2⟩)
  · exact Or.inl (Or.inl h)

instance : IsTrans QueryResultItem rankLE := by
  constructor
  intro a b c hab hbc
  unfold rankLE at *
  rcases hab with h1 | ⟨h1, h1'⟩
  · rcases hbc with h2 | ⟨h2, h2'⟩
    · exact Or.inl (h2.trans h1)
    · exact Or.inl (h2 ▸ h1)
  · rcases hbc with h2 | ⟨h2, h2'⟩
    · exact Or.inl (by rw [h1]; exact h2)
    · exact Or.inr ⟨h1.trans h2, h1'.trans h2'⟩

/-- Search failure per the spec error taxonomy. -/
inductive SearchError where
  | invalidArgument
deriving Repr, DecidableEq

/-- The query result item built from an embedded chunk for query vector
`q`. -/
def mkResultItem (q : List ℚ) (ec : EmbeddedChunk) : QueryResultItem :=
  ⟨ec.chunk_id, ec.document_id, dot ec.vector q, ec.text⟩

/-- Modelled from the spec: the ranked top-`k` result list — score every
embedded chunk by cosine similarity against `q`, sort by the ranking order
(descending score, ties by ascending chunk_id), keep the first `k`. -/
def searchResults (S : Snapshot) (q : List ℚ) (k : Nat) :
    List QueryResultItem :=
  ((S.embedded_chunks.map (mkResultItem q)).insertionSort rankLE).take k

/-- Modelled from the spec: `search(snapshot, query_vector, k)` — fails with
`InvalidArgument` if `k ≤ 0` or the query vector's dimensionality differs
from the snapshot's, otherwise returns the ranked top-`k` items. -/
def search (S : Snapshot) (q : List ℚ) (k : Nat) :
    Except SearchError (List QueryResultItem) :=
  if k = 0 then .error .invalidArgument
  else if q.length = S.dimensionality then .ok (searchResults S q k)
  else .error .invalidArgument

/-- A concrete three-chunk snapshot used by witnesses: chunks 1 and 2 tie
on score against the query vector `[0, 1]`. -/
def sampleSnapshot : Snapshot :=
  ⟨1, 2, [⟨0, 0, ['a'], [1, 0]⟩, ⟨1, 0, ['b'], [0, 1]⟩, ⟨2, 0, ['c'], [0, 1]⟩]⟩

/-- An embedding provider capability: text to vector, or failure. -/
def EmbedFn := List Char → Option (List ℚ)

/-- Modelled from the spec: `BuildFailure`, carrying the warning count of
the failed attempt. -/
structure BuildFailure where
  warning_count : Nat
deriving Repr, DecidableEq

/-- Modelled from the spec: embed a chunk sequence in order.  A chunk whose
embedding fails — or whose vector dimensionality differs from that of the
first successfully embedded chunk (`dim?`) — is dropped and counted as a
build warning.  Returns the surviving embedded chunks and the warning
count. -/
def embedChunks (embed : EmbedFn) : List Chunk → Option Nat →
    List EmbeddedChunk × Nat
  | [], _ => ([], 0)
  | c :: rest, dim? =>
    match embed c.text with
    | none =>
      ((embedChunks embed rest dim?).1, (embedChunks embed rest dim?).2 + 1)
    | some v =>
      match dim? with
      | none =>
        (⟨c.chunk_id, c.document_id, c.text, v⟩
            :: (embedChunks embed rest (some v.length)).1,
         (embedChunks embed rest (some v.length)).2)
      | some d =>
        if v.length = d then
          (⟨c.chunk_id, c.document_id, c.text, v⟩
              :: (embedChunks embed rest (some d)).1,
           (embedChunks embed rest (some d)).2)
        else
          ((embedChunks embed rest (some d)).1,
           (embedChunks embed rest (some d)).2 + 1)

/-- All chunks of a document set, renumbered with snapshot-global
chunk_ids so that chunk_ids stay unique within the snapshot. -/
def allChunks (cfg : ChunkCfg) (docs : List Document) : List Chunk :=
  ((docs.map (chunk cfg)).flatten.enum).map
    (fun p => { p.2 with chunk_id := p.1 })

/-- Modelled from the spec: `build(documents, embed_fn)` — chunk every
document, embed chunk by chunk dropping recoverable per-chunk failures,
and fail only when a non-empty document set yields zero surviving chunks.
Dimensionality is taken from the first successfully embedded chunk (0 for
a valid empty snapshot).  Returns the snapshot and the warning count. -/
def build (version : Nat) (cfg : ChunkCfg) (docs : List Document)
    (embed : EmbedFn) : Except BuildFailure (Snapshot × Nat) :=
  if docs ≠ [] ∧ (embedChunks embed (allChunks cfg docs) none).1 = [] then
    .error ⟨(embedChunks embed (allChunks cfg docs) none).2⟩
  else
    .ok (⟨version,
          (((embedChunks embed (allChunks cfg docs) none).1.head?.map
            (fun ec => ec.vector.length)).getD 0),
          (embedChunks embed (allChunks cfg docs) none).1⟩,
         (embedChunks embed (allChunks cfg docs) none).2)

/-- A query in flight: it pinned the snapshot that was active when it
began. -/
structure PendingQuery where
  qid : Nat
  pinned : Snapshot
  qvec : List ℚ
  k : Nat
deriving Repr, DecidableEq

/-- A finished query together with the results it returned. -/
structure CompletedQuery where
  qid : Nat
  results : List QueryResultItem
deriving Repr, DecidableEq

/-- Modelled from the spec: engine state — the active snapshot reference
(single writer), the at-most-one-build-in-flight flag, and the queries in
flight or finished. -/
structure EngineState where
  active : Snapshot
  building : Bool
  pending : List PendingQuery
  completed : List CompletedQuery
deriving Repr, DecidableEq

/-- Outcome of a rebuild trigger. -/
inductive RebuildOutcome where
  | started
  | buildAlreadyInProgress
deriving Repr, DecidableEq

/-- Modelled from the spec: the coordinator serializes rebuild triggers —
a request arriving while a build is in flight is rejected with
`BuildAlreadyInProgress` and changes nothing. -/
def requestRebuild (st : EngineState) : RebuildOutcome × EngineState :=
  if st.building then (.buildAlreadyInProgress, st)
  else (.started, { st with building := true })

/-- Interleaved events of the cooperative concurrency model: build
lifecycle transitions, query starts and query completions. -/
inductive Event where
  | beginBuild
  | finishBuild (s : Snapshot)
  | failBuild
  | beginQuery (qid : Nat) (q : List ℚ) (k : Nat)
  | completeQuery (qid : Nat)
deriving Repr, DecidableEq

/-- Modelled from the spec: one interleaving step.  `finishBuild` is the
single atomic replace of the active reference; `beginQuery` pins the
currently active snapshot; `completeQuery` computes the query's results
from its pinned snapshot, never from the current pointer. -/
def step (st : EngineState) : Event → EngineState
  | .beginBuild =>
    if st.building then st else { st with building := true }
  | .finishBuild s =>
    if st.building then { st with active := s, building := false } else st
  | .failBuild => { st with building := false }
  | .beginQuery qid q k =>
    { st with pending := ⟨qid, st.active, q, k⟩ :: st.pending }
  | .completeQuery qid =>
    { st with
      pending := st.pending.filter (fun p => p.qid != qid),
      completed := st.completed
        ++ (st.pending.filter (fun p => p.qid == qid)).map
            (fun p => ⟨p.qid, searchResults p.pinned p.qvec p.k⟩) }

/-- Run a sequence of interleaved events. -/
def run (st : EngineState) (evs : List Event) : EngineState :=
  evs.foldl step st

/-- The tracking invariant for one query id: it is either still pending
with its pinned snapshot, or completed with results computed from that
snapshot — and occurs exactly once. -/
def tracksQuery (qid : Nat) (snap : Snapshot) (q : List ℚ) (k : Nat)
    (st : EngineState) : Prop :=
  (st.pending.filter (fun p => p.qid == qid) = [⟨qid, snap, q, k⟩]
    ∧ st.completed.filter (fun c => c.qid == qid) = [])
  ∨ (st.pending.filter (fun p => p.qid == qid) = []
    ∧ st.completed.filter (fun c => c.qid == qid)
        = [⟨qid, searchResults snap q k⟩])

/-- Message role in the chat UIs. -/
inductive Role where
  | user
  | assistant
deriving Repr, DecidableEq

/-- A chat message as kept in the component state (`role`, `content`). -/
structure ChatMessage where
  role : Role
  content : String
deriving Repr, DecidableEq

/-- The `RAGResult` interface of Chatbot.tsx: every field optional. -/
structure RAGResult where
  chunk_id : Option String
  similarity : Option ℚ
  text : Option String
  document_id : Option String
  source : Option String
  answer : Option String
deriving Repr, DecidableEq

/-- The HTTP requests the embedded frontend handlers can issue. -/
inductive HttpRequest where
  | getRagQuery (q : String) (document_id : Option String)
  | postChatAsk (question : String)
  | getDocuments
  | deleteDocument (document_id : String)
deriving Repr, DecidableEq

/-- Chatbot.tsx: the helpful message shown when the query returned zero
results. -/
def noResultsMessage : String :=
  "I couldn't find specific results for this question. Please try:\n\n" ++
  "• Asking a more general question (e.g., 'What does the document contain?')\n" ++
  "• Using keywords that might be in the documents\n" ++
  "• Checking if documents are loaded in the bank_docs directory"

/-- Chatbot.tsx: the prefix the fallback paths prepend to extracted text. -/
def fallbackIntro : String :=
  "Bazuar në dokumentin, këtu është informacioni që gjetëm:\n\n"

/-- Chatbot.tsx `handleSend`, lines 68-101: how the assistant message
content is assembled from the `/rag/query` results.  If the first result
carries a generated `answer` it is used; otherwise the fallback uses the
first result's `text` truncated to 500 characters behind an Albanian
prefix; as a last resort the first three results are numbered and
truncated to 300 characters each. -/
def chatbotAssistantContent (results : List RAGResult) : String :=
  match results with
  | [] => noResultsMessage
  | firstResult :: _ =>
    match firstResult.answer with
    | some a => a
    | none =>
      match firstResult.text with
      | some t =>
        fallbackIntro ++ (if t.length > 500 then t.take 500 ++ "..." else t)
      | none =>
        fallbackIntro ++ String.join
          (((results.take 3).enum).filterMap
            (fun p => p.2.text.map (fun t0 =>
              toString (p.1 + 1) ++ ". "
                ++ (if t0.length > 300 then t0.take 300 ++ "..." else t0)
                ++ "\n\n")))

/-- JS `String.prototype.trim` as Chatbot.tsx and Reports.tsx use it in
the guard `!input.trim()`: strip leading and trailing whitespace. -/
def jsTrim (s : String) : String :=
  ⟨((s.data.dropWhile Char.isWhitespace).reverse.dropWhile
      Char.isWhitespace).reverse⟩

/-- The state a chat component keeps: message list, input box, loading
flag. -/
structure ChatState where
  messages : List ChatMessage
  input : String
  loading : Bool
deriving Repr, DecidableEq

/-- Chatbot.tsx `handleSend`, lines 47-66: guard
`if (!input.trim() || loading) return;` then append the user message,
clear the input, set loading and issue `GET /rag/query`.  Returns the
state after the synchronous part and the requests issued. -/
def chatbotHandleSend (documentId : Option String) (st : ChatState) :
    ChatState × List HttpRequest :=
  if jsTrim st.input = "" ∨ st.loading then (st, [])
  else
    (⟨st.messages ++ [⟨Role.user, st.input⟩], "", true⟩,
     [HttpRequest.getRagQuery st.input documentId])

/-- Reports.tsx `Chat.handleSend`, lines 131-143: same guard, then append
the user message, clear the input, set loading and issue
`POST /chat/ask`. -/
def chatHandleSend (st : ChatState) : ChatState × List HttpRequest :=
  if jsTrim st.input = "" ∨ st.loading then (st, [])
  else
    (⟨st.messages ++ [⟨Role.user, st.input⟩], "", true⟩,
     [HttpRequest.postChatAsk st.input])

/-- A document as listed by `GET /documents`. -/
structure DocMeta where
  document_id : String
deriving Repr, DecidableEq

/-- useAutoDelete.ts `checkAndDelete` (run on every mount): when
localStorage's `delete_documents_on_load` equals "true", fetch the
document list, issue a DELETE for every document, then remove the flag
(the flag survives only if the fetch itself fails). -/
def checkAndDelete (flagVal : Option String)
    (fetched : Option (List DocMeta)) : List HttpRequest × Option String :=
  if flagVal = some "true" then
    match fetched with
    | none => ([HttpRequest.getDocuments], flagVal)
    | some docs =>
      (HttpRequest.getDocuments
        :: docs.map (fun d => HttpRequest.deleteDocument d.document_id),
       none)
  else ([], flagVal)

/-- useAutoDelete.ts `handleBeforeUnload`: on unload, if any documents
exist, set the `delete_documents_on_load` flag for the next load. -/
def hookHandleBeforeUnload (fetched : Option (List DocMeta))
    (store : Option String) : Option String :=
  match fetched with
  | none => store
  | some docs => if docs.length > 0 then some "true" else store

/-- Documents page (src/unnamed/part_002) `handleBeforeUnload`,
lines 127-143: on unload, issue a DELETE for every currently listed
document. -/
def documentsHandleBeforeUnload (documents : List DocMeta) :
    List HttpRequest :=
  documents.map (fun d => HttpRequest.deleteDocument d.document_id)

lemma chunkAux_join_drop (cfg : ChunkCfg) (docId : Nat) (text : List Char)
    (hov : cfg.overlapChars < cfg.maxChunkChars) :
    ∀ fuel start cid, start < text.length → text.length - start ≤ fuel →
      ((chunkAux cfg docId text fuel start cid).map
          (fun x => x.text.drop cfg.overlapChars)).flatten
        = text.drop (start + cfg.overlapChars) := by
  intro fuel
  induction fuel with
  | zero =>
    intro start cid hlt hfuel
    omega
  | succ n ih =>
    intro start cid hlt hfuel
    simp only [chunkAux]
    by_cases he : min (start + cfg.maxChunkChars) text.length = text.length
    · simp only [he, if_pos rfl, List.map_cons, List.map_nil, List.flatten,
        List.append_nil]
      rw [List.drop_take, List.drop_drop]
      rw [show text.length - start - cfg.overlapChars
          = (text.drop (start + cfg.overlapChars)).length by
        simp [List.length_drop]; omega]
      exact List.take_length _
    · have hmin : min (start + cfg.maxChunkChars) text.length
          = start + cfg.maxChunkChars := by
        omega
      have hend : start + cfg.maxChunkChars < text.length := by omega
      simp only [if_neg he, List.map_cons, List.flatten]
      have hrec := ih (min (start + cfg.maxChunkChars) text.length
          - cfg.overlapChars) (cid + 1) (by omega) (by omega)
      rw [hrec, hmin]
      rw [show start + cfg.maxChunkChars - start = cfg.maxChunkChars by omega]
      rw [List.drop_take, List.drop_drop]
      rw [show start + cfg.maxChunkChars - cfg.overlapChars + cfg.overlapChars
          = start + cfg.maxChunkChars by omega]
      have hsplit := List.take_append_drop
        (cfg.maxChunkChars - cfg.overlapChars)
        (text.drop (start + cfg.overlapChars))
      rw [List.drop_drop] at hsplit
      rw [show start + cfg.overlapChars + (cfg.maxChunkChars - cfg.overlapChars)
          = start + cfg.maxChunkChars by omega] at hsplit
      exact hsplit

lemma chunkAux_reconstruct (cfg : ChunkCfg) (docId : Nat) (text : List Char)
    (hov : cfg.overlapChars < cfg.maxChunkChars) :
    ∀ fuel start cid, start < text.length → text.length - start ≤ fuel →
      reconstruct cfg (chunkAux cfg docId text fuel start cid)
        = text.drop start := by
  intro fuel
  induction fuel with
  | zero =>
    intro start cid hlt hfuel
    omega
  | succ n ih =>
    intro start cid hlt hfuel
    simp only [chunkAux]
    by_cases he : min (start + cfg.maxChunkChars) text.length = text.length
    · simp only [he, eq_self_iff_true, if_true, reconstruct, List.map_nil,
        List.flatten_nil, List.append_nil]
      rw [show text.length - start = (text.drop start).length by
        simp [List.length_drop]]
      exact List.take_length _
    · have hmin : min (start + cfg.maxChunkChars) text.length
          = start + cfg.maxChunkChars := by
        omega
      have hend : start + cfg.maxChunkChars < text.length := by omega
      simp only [if_neg he, reconstruct]
      rw [chunkAux_join_drop cfg docId text hov n
        (min (start + cfg.maxChunkChars) text.length - cfg.overlapChars)
        (cid + 1) (by omega) (by omega)]
      rw [hmin]
      rw [show start + cfg.maxChunkChars - start = cfg.maxChunkChars by omega]
      rw [show start + cfg.maxChunkChars - cfg.overlapChars + cfg.overlapChars
          = start + cfg.maxChunkChars by omega]
      have hsplit := List.take_append_drop cfg.maxChunkChars (text.drop start)
      rw [List.drop_drop] at hsplit
      exact hsplit

/-- C7: for every document D, the chunks of `chunk(D)`, ordered by chunk_id
(the order in which the chunker emits them), reconstruct D's full text
exactly when their texts are concatenated with the configured overlap
removed at each boundary. -/
theorem chunk_reconstruct (cfg : ChunkCfg) (d : Document)
    (hov : cfg.overlapChars < cfg.maxChunkChars) :
    reconstruct cfg (chunk cfg d) = d.full_text := by
  unfold chunk
  by_cases h : d.full_text.length = 0
  · rw [if_pos h]
    have : d.full_text = [] := List.length_eq_zero.mp h
    simp [reconstruct, this]
  · rw [if_neg h]
    rw [chunkAux_reconstruct cfg d.document_id d.full_text hov _ 0 0
      (by omega) (by omega)]
    simp

/-- C7 witness: the round trip at a concrete 200-character document with
`max_chunk_chars = 100`, `overlap_chars = 20`. -/
theorem chunk_reconstruct_witness :
    (20 : Nat) < 100
    ∧ reconstruct ⟨100, 20⟩
        (chunk ⟨100, 20⟩ ⟨7, "AML policy", List.replicate 200 'a'⟩)
      = List.replicate 200 'a' :=
  ⟨by decide,
   chunk_reconstruct ⟨100, 20⟩ ⟨7, "AML policy", List.replicate 200 'a'⟩
     (by decide)⟩

set_option maxRecDepth 8000 in
/-- C8: `chunk(document)` edge cases — empty text yields zero chunks (not an
error); a non-empty document shorter than `max_chunk_chars` yields exactly
one chunk spanning its whole text; and a 200-character document chunked with
`max_chunk_chars = 100`, `overlap_chars = 20` yields exactly 3 chunks with
character offsets `[0,100)`, `[80,180)`, `[160,200)`. -/
theorem chunk_edge_cases :
    (∀ (cfg : ChunkCfg) (d : Document), d.full_text = [] → chunk cfg d = [])
    ∧ (∀ (cfg : ChunkCfg) (d : Document),
        0 < d.full_text.length → d.full_text.length < cfg.maxChunkChars →
        chunk cfg d = [⟨0, d.document_id, d.full_text, 0, d.full_text.length⟩])
    ∧ ((chunk ⟨100, 20⟩ ⟨7, "AML policy", List.replicate 200 'a'⟩).map
        (fun c => (c.char_offset_start, c.char_offset_end))
      = [(0, 100), (80, 180), (160, 200)]) := by
  refine ⟨?_, ?_, ?_⟩
  · intro cfg d h
    simp [chunk, h]
  · intro cfg d hpos hlt
    unfold chunk
    rw [if_neg (by omega)]
    have he : min (0 + cfg.maxChunkChars) d.full_text.length
        = d.full_text.length := by omega
    simp only [chunkAux, he, eq_self_iff_true, if_true]
    simp
  · decide

/-- C8 witness: the edge cases evaluated at concrete documents. -/
theorem chunk_edge_cases_witness :
    chunk ⟨100, 20⟩ ⟨1, "empty", []⟩ = []
    ∧ chunk ⟨100, 20⟩ ⟨2, "short", ['x', 'y']⟩ = [⟨0, 2, ['x', 'y'], 0, 2⟩] :=
  ⟨chunk_edge_cases.1 ⟨100, 20⟩ ⟨1, "empty", []⟩ rfl,
   chunk_edge_cases.2.1 ⟨100, 20⟩ ⟨2, "short", ['x', 'y']⟩ (by decide)
     (by decide)⟩

lemma searchResults_pairwise_rankLE (S : Snapshot) (q : List ℚ) (k : Nat) :
    (searchResults S q k).Pairwise rankLE := by
  unfold searchResults
  exact List.Pairwise.sublist (List.take_sublist _ _)
    (List.sorted_insertionSort rankLE _)

lemma searchResults_chunkIds_nodup (S : Snapshot) (q : List ℚ) (k : Nat)
    (hnodup : (S.embedded_chunks.map (fun ec => ec.chunk_id)).Nodup) :
    ((searchResults S q k).map (fun r => r.chunk_id)).Nodup := by
  unfold searchResults
  have hmap : (S.embedded_chunks.map (mkResultItem q)).map
      (fun r => r.chunk_id) = S.embedded_chunks.map (fun ec => ec.chunk_id) := by
    rw [List.map_map]
    rfl
  have hperm : List.Perm
      ((S.embedded_chunks.map (mkResultItem q)).insertionSort rankLE)
      (S.embedded_chunks.map (mkResultItem q)) :=
    List.perm_insertionSort rankLE _
  have hsorted_nodup :
      (((S.embedded_chunks.map (mkResultItem q)).insertionSort rankLE).map
        (fun r => r.chunk_id)).Nodup := by
    refine (List.Perm.nodup_iff (List.Perm.map _ hperm)).mpr ?_
    rw [hmap]
    exact hnodup
  exact List.Nodup.sublist
    (List.Sublist.map _ (List.take_sublist _ _)) hsorted_nodup

/-- C2: for every snapshot S, query vector q of matching dimensionality and
k > 0 (given the snapshot invariant that chunk_ids are unique within a
snapshot), `search(S, q, k)` returns its result items in strictly
descending score order, ties in score broken by ascending chunk_id. -/
theorem search_ordering (S : Snapshot) (q : List ℚ) (k : Nat)
    (res : List QueryResultItem)
    (hnodup : (S.embedded_chunks.map (fun ec => ec.chunk_id)).Nodup)
    (hk : 0 < k) (hdim : q.length = S.dimensionality)
    (hok : search S q k = .ok res) :
    res.Pairwise rankLT := by
  unfold search at hok
  rw [if_neg (by omega), if_pos hdim] at hok
  have hres : res = searchResults S q k := (Except.ok.injEq _ _).mp hok.symm
  subst hres
  have hp := searchResults_pairwise_rankLE S q k
  have hne : (searchResults S q k).Pairwise
      (fun a b => a.chunk_id ≠ b.chunk_id) := by
    have := searchResults_chunkIds_nodup S q k hnodup
    exact (List.pairwise_map).mp this
  have hcomb := List.pairwise_and_iff.mpr ⟨hp, hne⟩
  refine hcomb.imp ?_
  intro a b hab
  rcases hab with ⟨h1 | ⟨h1, h1'⟩, h2⟩
  · exact Or.inl h1
  · exact Or.inr ⟨h1, lt_of_le_of_ne h1' h2⟩

/-- C2 witness: a concrete search on `sampleSnapshot` — two chunks tied on
score come back strictly ordered with the tie broken by chunk_id. -/
theorem search_ordering_witness :
    (sampleSnapshot.embedded_chunks.map (fun ec => ec.chunk_id)).Nodup
    ∧ (0 : Nat) < 3
    ∧ ([(0 : ℚ), 1]).length = sampleSnapshot.dimensionality
    ∧ (searchResults sampleSnapshot [0, 1] 3).Pairwise rankLT :=
  ⟨by decide, by decide, by rfl,
   search_ordering sampleSnapshot [0, 1] 3 _ (by decide) (by decide) (by rfl)
     rfl⟩

lemma embedChunks_length (embed : EmbedFn) :
    ∀ (l : List Chunk) (dim? : Option Nat),
      (embedChunks embed l dim?).1.length + (embedChunks embed l dim?).2
        = l.length := by
  intro l
  induction l with
  | nil => intro d; simp [embedChunks]
  | cons c rest ih =>
    intro d
    cases h : embed c.text with
    | none =>
      simp only [embedChunks, h, List.length_cons]
      have := ih d
      omega
    | some v =>
      cases d with
      | none =>
        simp only [embedChunks, h, List.length_cons]
        have := ih (some v.length)
        omega
      | some d0 =>
        by_cases hv : v.length = d0
        · simp only [embedChunks, h, if_pos hv, List.length_cons]
          have := ih (some d0)
          omega
        · simp only [embedChunks, h, if_neg hv, List.length_cons]
          have := ih (some d0)
          omega

lemma embedChunks_mem (embed : EmbedFn) :
    ∀ (l : List Chunk) (dim? : Option Nat),
      ∀ ec ∈ (embedChunks embed l dim?).1, embed ec.text = some ec.vector := by
  intro l
  induction l with
  | nil => intro d ec h; simp [embedChunks] at h
  | cons c rest ih =>
    intro d ec hmem
    cases h : embed c.text with
    | none =>
      simp only [embedChunks, h] at hmem
      exact ih d ec hmem
    | some v =>
      cases d with
      | none =>
        simp only [embedChunks, h] at hmem
        rcases List.mem_cons.mp hmem with rfl | hmem
        · exact h
        · exact ih (some v.length) ec hmem
      | some d0 =>
        by_cases hv : v.length = d0
        · simp only [embedChunks, h, if_pos hv] at hmem
          rcases List.mem_cons.mp hmem with rfl | hmem
          · exact h
          · exact ih (some d0) ec hmem
        · simp only [embedChunks, h, if_neg hv] at hmem
          exact ih (some d0) ec hmem

/-- C3: `build` drops each chunk whose embedding fails, recording a warning
(surviving chunks + warnings = total chunks, and every chunk of the
snapshot embedded successfully); it returns a `BuildFailure` iff the input
document set was non-empty and zero chunks survived; and the empty document
set builds a valid empty snapshot with `chunk_count = 0` and no
warnings. -/
theorem build_failure_iff :
    (∀ (v : Nat) (cfg : ChunkCfg) (docs : List Document) (embed : EmbedFn)
        (s : Snapshot) (w : Nat), build v cfg docs embed = .ok (s, w) →
        s.embedded_chunks.length + w = (allChunks cfg docs).length
        ∧ ∀ ec ∈ s.embedded_chunks, embed ec.text = some ec.vector)
    ∧ (∀ (v : Nat) (cfg : ChunkCfg) (docs : List Document) (embed : EmbedFn),
        (∃ f, build v cfg docs embed = .error f)
          ↔ docs ≠ [] ∧ (embedChunks embed (allChunks cfg docs) none).1 = [])
    ∧ (∀ (v : Nat) (cfg : ChunkCfg) (embed : EmbedFn),
        build v cfg [] embed = .ok (⟨v, 0, []⟩, 0)) := by
  refine ⟨?_, ?_, ?_⟩
  · intro v cfg docs embed s w hok
    unfold build at hok
    by_cases hcond : docs ≠ []
        ∧ (embedChunks embed (allChunks cfg docs) none).1 = []
    · rw [if_pos hcond] at hok
      exact absurd hok (by simp)
    · rw [if_neg hcond] at hok
      simp only [Except.ok.injEq, Prod.mk.injEq] at hok
      obtain ⟨hs, hw⟩ := hok
      subst hs
      subst hw
      constructor
      · exact embedChunks_length embed (allChunks cfg docs) none
      · exact embedChunks_mem embed (allChunks cfg docs) none
  · intro v cfg docs embed
    unfold build
    by_cases hcond : docs ≠ []
        ∧ (embedChunks embed (allChunks cfg docs) none).1 = []
    · rw [if_pos hcond]
      exact ⟨fun _ => hcond, fun _ => ⟨_, rfl⟩⟩
    · rw [if_neg hcond]
      constructor
      · intro ⟨f, hf⟩
        exact absurd hf (by simp)
      · intro h
        exact absurd h hcond
  · intro v cfg embed
    unfold build
    rw [if_neg (by simp)]
    simp [allChunks, embedChunks, chunk]

/-- C3 witness: a concrete successful build of one document where one of
the two chunks fails to embed — accounting holds, no failure. -/
theorem build_failure_iff_witness :
    (∃ s w, build 1 ⟨100, 20⟩ [⟨2, "short", ['x', 'y']⟩]
        (fun _ => some [1, 0]) = .ok (s, w))
    ∧ build 1 ⟨100, 20⟩ [] (fun _ => some [1, 0]) = .ok (⟨1, 0, []⟩, 0) := by
  constructor
  · exact ⟨_, _, rfl⟩
  · exact build_failure_iff.2.2 1 ⟨100, 20⟩ (fun _ => some [1, 0])

/-- C6: building is idempotent up to version — for every document set and
deterministic embedder, two successful builds (with possibly different
version stamps) produce snapshots whose `embedded_chunks` content is
identical. -/
theorem build_idempotent (v₁ v₂ : Nat) (cfg : ChunkCfg)
    (docs : List Document) (embed : EmbedFn)
    (s₁ s₂ : Snapshot) (w₁ w₂ : Nat)
    (_hne : docs ≠ [])
    (h₁ : build v₁ cfg docs embed = .ok (s₁, w₁))
    (h₂ : build v₂ cfg docs embed = .ok (s₂, w₂)) :
    s₁.embedded_chunks = s₂.embedded_chunks := by
  unfold build at h₁ h₂
  by_cases hcond : docs ≠ []
      ∧ (embedChunks embed (allChunks cfg docs) none).1 = []
  · rw [if_pos hcond] at h₁
    exact absurd h₁ (by simp)
  · rw [if_neg hcond] at h₁ h₂
    simp only [Except.ok.injEq, Prod.mk.injEq] at h₁ h₂
    obtain ⟨hs₁, hw₁⟩ := h₁
    obtain ⟨hs₂, hw₂⟩ := h₂
    subst hs₁
    subst hs₂
    rfl

/-- C6 witness: two builds of the same one-document set at versions 1 and 2
have identical `embedded_chunks`. -/
theorem build_idempotent_witness :
    [(⟨2, "short", ['x', 'y']⟩ : Document)] ≠ []
    ∧ ∀ s₁ s₂ w₁ w₂,
      build 1 ⟨100, 20⟩ [⟨2, "short", ['x', 'y']⟩] (fun _ => some [1, 0])
        = .ok (s₁, w₁) →
      build 2 ⟨100, 20⟩ [⟨2, "short", ['x', 'y']⟩] (fun _ => some [1, 0])
        = .ok (s₂, w₂) →
      s₁.embedded_chunks = s₂.embedded_chunks :=
  ⟨by decide,
   fun s₁ s₂ w₁ w₂ h₁ h₂ =>
     build_idempotent 1 2 ⟨100, 20⟩ [⟨2, "short", ['x', 'y']⟩]
       (fun _ => some [1, 0]) s₁ s₂ w₁ w₂ (by decide) h₁ h₂⟩

lemma tracksQuery_step (qid : Nat) (snap : Snapshot) (q : List ℚ) (k : Nat)
    (st : EngineState) (ev : Event)
    (hev : ∀ q' k', ev ≠ .beginQuery qid q' k')
    (h : tracksQuery qid snap q k st) :
    tracksQuery qid snap q k (step st ev) := by
  cases ev with
  | beginBuild =>
    by_cases hb : st.building
    · simpa [step, hb] using h
    · simpa [step, hb, tracksQuery] using h
  | finishBuild s =>
    by_cases hb : st.building
    · simpa [step, hb, tracksQuery] using h
    · simpa [step, hb] using h
  | failBuild =>
    simpa [step, tracksQuery] using h
  | beginQuery qid' q' k' =>
    have hqid : qid' ≠ qid := by
      intro hcontra
      exact hev q' k' (by rw [hcontra])
    unfold tracksQuery at h ⊢
    simp only [step, List.filter_cons]
    have : ((⟨qid', st.active, q', k'⟩ : PendingQuery).qid == qid) = false := by
      simp [hqid]
    rw [this]
    simpa using h
  | completeQuery qid' =>
    by_cases hq : qid' = qid
    · subst hq
      unfold tracksQuery at h ⊢
      simp only [step, List.filter_filter, List.filter_append]
      have hfneg : st.pending.filter
          (fun p => (p.qid == qid') && (p.qid != qid')) = [] := by
        apply List.filter_eq_nil_iff.mpr
        intro p _
        by_cases hp : p.qid = qid' <;> simp [hp]
      rcases h with ⟨hp, hc⟩ | ⟨hp, hc⟩
      · refine Or.inr ⟨hfneg, ?_⟩
        rw [hc, hp]
        simp
      · refine Or.inr ⟨hfneg, ?_⟩
        rw [hc, hp]
        simp
    · unfold tracksQuery at h ⊢
      simp only [step, List.filter_filter, List.filter_append]
      have hfeq : st.pending.filter
          (fun p => (p.qid == qid) && (p.qid != qid'))
          = st.pending.filter (fun p => p.qid == qid) := by
        apply List.filter_congr
        intro p _
        by_cases hp : p.qid = qid
        · have h2 : qid ≠ qid' := fun hcc => hq hcc.symm
          simp [hp, h2]
        · simp [hp]
      have hcnil : ((st.pending.filter (fun p => p.qid == qid')).map
          (fun p => (⟨p.qid, searchResults p.pinned p.qvec p.k⟩ :
            CompletedQuery))).filter (fun c => c.qid == qid) = [] := by
        apply List.filter_eq_nil_iff.mpr
        intro c hc
        rcases List.mem_map.mp hc with ⟨p, hpmem, rfl⟩
        have : p.qid = qid' := by
          have := List.of_mem_filter hpmem
          simpa using this
        simp [this, fun hcc : qid' = qid => hq hcc]
      rw [hfeq, hcnil]
      simpa using h

lemma tracksQuery_run (qid : Nat) (snap : Snapshot) (q : List ℚ) (k : Nat) :
    ∀ (evs : List Event) (st : EngineState),
      (∀ ev ∈ evs, ∀ q' k', ev ≠ .beginQuery qid q' k') →
      tracksQuery qid snap q k st →
      tracksQuery qid snap q k (run st evs) := by
  intro evs
  induction evs with
  | nil => intro st _ h; exact h
  | cons ev rest ih =>
    intro st hevs h
    have h1 := tracksQuery_step qid snap q k st ev
      (hevs ev (List.mem_cons_self ev rest)) h
    exact ih (step st ev)
      (fun e he => hevs e (List.mem_cons_of_mem ev he)) h1

lemma searchResults_from_snapshot (S : Snapshot) (q : List ℚ) (k : Nat) :
    ∀ r ∈ searchResults S q k, ∃ ec ∈ S.embedded_chunks,
      r = mkResultItem q ec := by
  intro r hr
  unfold searchResults at hr
  have h1 : r ∈ (S.embedded_chunks.map (mkResultItem q)).insertionSort rankLE :=
    List.Sublist.mem hr (List.take_sublist _ _)
  have h2 : r ∈ S.embedded_chunks.map (mkResultItem q) :=
    (List.Perm.mem_iff (List.perm_insertionSort rankLE _)).mp h1
  rcases List.mem_map.mp h2 with ⟨ec, hec, rfl⟩
  exact ⟨ec, hec, rfl⟩

/-- C4: a rebuild request arriving while another build is in flight is
rejected with `BuildAlreadyInProgress` — it is neither queued nor run —
and leaves the whole engine state, in particular the active snapshot,
unchanged. -/
theorem rebuild_rejected_while_building (st : EngineState)
    (h : st.building = true) :
    (requestRebuild st).1 = .buildAlreadyInProgress
    ∧ (requestRebuild st).2.active = st.active
    ∧ (requestRebuild st).2 = st := by
  simp [requestRebuild, h]

/-- C4 witness: a concrete state with a build in flight. -/
theorem rebuild_rejected_while_building_witness :
    (⟨sampleSnapshot, true, [], []⟩ : EngineState).building = true
    ∧ (requestRebuild ⟨sampleSnapshot, true, [], []⟩).1
        = .buildAlreadyInProgress
    ∧ (requestRebuild ⟨sampleSnapshot, true, [], []⟩).2
        = ⟨sampleSnapshot, true, [], []⟩ :=
  ⟨rfl,
   (rebuild_rejected_while_building ⟨sampleSnapshot, true, [], []⟩ rfl).1,
   (rebuild_rejected_while_building ⟨sampleSnapshot, true, [], []⟩ rfl).2.2⟩

/-- C5: a query that begins against the active snapshot of version N and
completes after any further interleaving — including an atomic swap to a
new snapshot — returns exactly the results computed from the version-N
snapshot it pinned, and every result comes from that snapshot's chunks:
no query observes a mix of snapshot versions. -/
theorem query_version_isolation (s0 : EngineState) (evs1 evs2 : List Event)
    (qid : Nat) (q : List ℚ) (k : Nat)
    (hfresh_p : (run s0 evs1).pending.filter (fun p => p.qid == qid) = [])
    (hfresh_c : (run s0 evs1).completed.filter (fun c => c.qid == qid) = [])
    (hevs : ∀ ev ∈ evs2, ∀ q' k', ev ≠ .beginQuery qid q' k') :
    ∀ c ∈ (run (step (run s0 evs1) (.beginQuery qid q k)) evs2).completed,
      c.qid = qid →
      c.results = searchResults (run s0 evs1).active q k
      ∧ ∀ r ∈ c.results, ∃ ec ∈ (run s0 evs1).active.embedded_chunks,
          r.chunk_id = ec.chunk_id ∧ r.document_id = ec.document_id := by
  intro c hmem hqid
  have hstart : tracksQuery qid (run s0 evs1).active q k
      (step (run s0 evs1) (.beginQuery qid q k)) := by
    unfold tracksQuery
    refine Or.inl ⟨?_, ?_⟩
    · simp only [step, List.filter_cons]
      have : ((⟨qid, (run s0 evs1).active, q, k⟩ : PendingQuery).qid == qid)
          = true := by simp
      rw [this]
      simp [hfresh_p]
    · simpa [step] using hfresh_c
  have hfinal := tracksQuery_run qid (run s0 evs1).active q k evs2
    (step (run s0 evs1) (.beginQuery qid q k)) hevs hstart
  have hcf : c ∈ (run (step (run s0 evs1) (.beginQuery qid q k))
      evs2).completed.filter (fun c => c.qid == qid) :=
    List.mem_filter.mpr ⟨hmem, by simp [hqid]⟩
  rcases hfinal with ⟨_, hc⟩ | ⟨_, hc⟩
  · rw [hc] at hcf
    exact absurd hcf (List.not_mem_nil c)
  · rw [hc] at hcf
    have hceq : c = ⟨qid, searchResults (run s0 evs1).active q k⟩ := by
      simpa using hcf
    subst hceq
    refine ⟨rfl, ?_⟩
    intro r hr
    rcases searchResults_from_snapshot _ q k r hr with ⟨ec, hecmem, rfl⟩
    exact ⟨ec, hecmem, rfl, rfl⟩

/-- C5 witness: a concrete interleaving — query 5 begins against
`sampleSnapshot` (version 1), a build completes and swaps in an empty
version-2 snapshot, then the query completes; its results still come from
the version-1 snapshot. -/
theorem query_version_isolation_witness :
    ((run ⟨sampleSnapshot, false, [], []⟩ []).pending.filter
        (fun p => p.qid == 5) = [])
    ∧ ((run ⟨sampleSnapshot, false, [], []⟩ []).completed.filter
        (fun c => c.qid == 5) = [])
    ∧ (∀ ev ∈ [Event.beginBuild, Event.finishBuild ⟨2, 2, []⟩,
          Event.completeQuery 5], ∀ q' k',
        ev ≠ Event.beginQuery 5 q' k')
    ∧ (∀ c ∈ (run (step (run ⟨sampleSnapshot, false, [], []⟩ [])
          (.beginQuery 5 [0, 1] 3))
          [Event.beginBuild, Event.finishBuild ⟨2, 2, []⟩,
           Event.completeQuery 5]).completed,
        c.qid = 5 →
        c.results = searchResults
          (run ⟨sampleSnapshot, false, [], []⟩ []).active [0, 1] 3
        ∧ ∀ r ∈ c.results, ∃ ec ∈ (run ⟨sampleSnapshot, false, [],
            []⟩ []).active.embedded_chunks,
            r.chunk_id = ec.chunk_id ∧ r.document_id = ec.document_id) := by
  have hevs : ∀ ev ∈ [Event.beginBuild, Event.finishBuild ⟨2, 2, []⟩,
      Event.completeQuery 5], ∀ q' k', ev ≠ Event.beginQuery 5 q' k' := by
    intro ev hev q' k'
    simp only [List.mem_cons, List.not_mem_nil, or_false] at hev
    rcases hev with rfl | rfl | rfl <;> simp
  exact ⟨rfl, rfl, hevs,
    query_version_isolation ⟨sampleSnapshot, false, [], []⟩ []
      [Event.beginBuild, Event.finishBuild ⟨2, 2, []⟩, Event.completeQuery 5]
      5 [0, 1] 3 rfl rfl hevs⟩

/-- C1 counterpart (the code's actual behaviour): with the generation
gateway unavailable (no `answer` field) and top-2 snippets "A" and "B",
Chatbot.tsx returns the Albanian prefix followed by the FIRST result's
text only — not the verbatim concatenation "AB" the spec prescribes. -/
theorem chatbot_fallback_not_verbatim :
    chatbotAssistantContent
      [⟨none, none, some "A", none, none, none⟩,
       ⟨none, none, some "B", none, none, none⟩]
      = fallbackIntro ++ "A"
    ∧ chatbotAssistantContent
      [⟨none, none, some "A", none, none, none⟩,
       ⟨none, none, some "B", none, none, none⟩]
      ≠ "A" ++ "B" := by
  constructor
  · rfl
  · decide

/-- C9: on a page load with the `delete_documents_on_load` flag set to
"true", the frontend issues a DELETE for every document returned by
`GET /documents` and then removes the flag; independently, the Documents
page's beforeunload handler issues a DELETE for every listed document —
so a refresh destroys all uploaded documents without an explicit user
deletion. -/
theorem auto_delete_on_refresh (docs : List DocMeta) :
    (checkAndDelete (some "true") (some docs)).1
      = HttpRequest.getDocuments
        :: docs.map (fun d => HttpRequest.deleteDocument d.document_id)
    ∧ (∀ d ∈ docs, HttpRequest.deleteDocument d.document_id
        ∈ (checkAndDelete (some "true") (some docs)).1)
    ∧ (checkAndDelete (some "true") (some docs)).2 = none
    ∧ documentsHandleBeforeUnload docs
      = docs.map (fun d => HttpRequest.deleteDocument d.document_id) := by
  refine ⟨rfl, ?_, rfl, rfl⟩
  intro d hd
  simp only [checkAndDelete, if_pos rfl]
  exact List.mem_cons_of_mem _ (List.mem_map.mpr ⟨d, hd, rfl⟩)

/-- C9 witness: two concrete documents are both deleted and the flag is
cleared. -/
theorem auto_delete_on_refresh_witness :
    HttpRequest.deleteDocument "a"
      ∈ (checkAndDelete (some "true") (some [⟨"a"⟩, ⟨"b"⟩])).1
    ∧ HttpRequest.deleteDocument "b"
      ∈ (checkAndDelete (some "true") (some [⟨"a"⟩, ⟨"b"⟩])).1
    ∧ (checkAndDelete (some "true") (some [⟨"a"⟩, ⟨"b"⟩])).2 = none :=
  ⟨(auto_delete_on_refresh [⟨"a"⟩, ⟨"b"⟩]).2.1 ⟨"a"⟩ (by simp),
   (auto_delete_on_refresh [⟨"a"⟩, ⟨"b"⟩]).2.1 ⟨"b"⟩ (by simp),
   (auto_delete_on_refresh [⟨"a"⟩, ⟨"b"⟩]).2.2.1⟩

/-- C10: in both chat UIs, a send attempt with an empty or whitespace-only
input, or while a previous request is still loading, does nothing — no
HTTP request is issued and the component state (message list included) is
unchanged. -/
theorem handleSend_guard (documentId : Option String) (st : ChatState)
    (h : jsTrim st.input = "" ∨ st.loading = true) :
    chatbotHandleSend documentId st = (st, [])
    ∧ chatHandleSend st = (st, []) := by
  have h' : jsTrim st.input = "" ∨ st.loading = true := h
  constructor
  · unfold chatbotHandleSend
    rw [if_pos (by simpa using h')]
  · unfold chatHandleSend
    rw [if_pos (by simpa using h')]

/-- C10 witness: a whitespace-only input with `loading = false`, and a
non-empty input with `loading = true`, both leave the state unchanged and
issue nothing. -/
theorem handleSend_guard_witness :
    (jsTrim (⟨[], "   ", false⟩ : ChatState).input = ""
      ∨ (⟨[], "   ", false⟩ : ChatState).loading = true)
    ∧ chatbotHandleSend none ⟨[], "   ", false⟩ = (⟨[], "   ", false⟩, [])
    ∧ chatHandleSend ⟨[], "q", true⟩ = (⟨[], "q", true⟩, []) :=
  ⟨Or.inl (by decide),
   (handleSend_guard none ⟨[], "   ", false⟩ (Or.inl (by decide))).1,
   (handleSend_guard none ⟨[], "q", true⟩ (Or.inr rfl)).2⟩

end MLRC
